import Mathlib

/-!
Verification of the auction bidding engine of this repository.

The embedding mirrors the backend sources:
- `placeBid` embeds the socket `place-bid` handler in `backend/server.js`:
  look the auction up, reject when it is missing, when its status is not
  `active`, when the current time is past `endTime`, or when the amount does
  not strictly exceed `currentPrice`; otherwise append a `Bid` record and
  write the new `currentPrice` / `highestBidder`, then broadcast `new-bid`
  to the auction's room.
- `putAuction` embeds `router.put` in `backend/routes/auctions.js`: after the
  not-found and authorization checks it conditionally copies only `title`,
  `description`, `category` and `image` from the request body.
- The concurrent model (`BidThread`, `stepThread`, `runSched`) exposes the
  same handler cut at its `await` boundaries (`findById`, `bid.save()`,
  `auction.save()`, the populate before the broadcast), so interleavings of
  several in-flight submissions can be examined.

Amounts and prices are modelled as `Int` (the checks in the source are pure
order comparisons), timestamps as `Int`, identifiers as `Nat`.
-/

/-- Auction status, the `status` enum of the Auction schema. -/
inductive Status where
  | active
  | ended
  | cancelled
deriving DecidableEq, Repr

/-- The Auction document, following the mongoose schema (`auctionSchema`). -/
structure Auction where
  title : String
  description : String
  startingPrice : Int
  currentPrice : Int
  category : String
  image : String
  status : Status
  startTime : Int
  endTime : Int
  seller : Nat
  highestBidder : Option Nat
  bidCount : Nat
  createdAt : Int
deriving DecidableEq, Repr

/-- The Bid document. The schema file is absent from the sources; the fields
follow the constructor call in the `place-bid` handler
(`new Bid auction bidder amount`) and the stored document shown in the
repository's data-flow documentation: auction reference, bidder reference,
amount, and an automatic `createdAt` timestamp. There is no sequence field. -/
structure BidRecord where
  auction : Nat
  bidder : Nat
  amount : Int
  createdAt : Int
deriving DecidableEq, Repr

/-- The rejection reasons emitted by the `place-bid` handler, one per
early-return branch. -/
inductive BidErr where
  | auctionNotFound
  | auctionNotActive
  | auctionEnded
  | bidTooLow
deriving DecidableEq, Repr

/-- The exact message string each branch passes to `socket.emit bid-error`. -/
def bidErrMessage : BidErr → String
  | .auctionNotFound => "Auction not found"
  | .auctionNotActive => "Auction is not active"
  | .auctionEnded => "Auction has ended"
  | .bidTooLow => "Bid must be higher than current price"

/-- Outbound events of the handler: `bid-error` goes to the submitting
session only; `new-bid` is broadcast to the auction's room with the stored
bid and the new current price. -/
inductive Event where
  | bidError (sessionId : Nat) (err : BidErr)
  | newBid (auctionId : Nat) (bid : BidRecord) (currentPrice : Int)
deriving DecidableEq, Repr

/-- Server-side state: the auction collection, the bid collection (append
order preserved), and the socket.io rooms (auction id ↦ joined sessions). -/
structure AppState where
  auctions : List (Nat × Auction)
  bids : List BidRecord
  rooms : List (Nat × List Nat)
deriving DecidableEq, Repr

/-- Lookup `Auction.findById`: first document with the given id. -/
def findAuction : List (Nat × Auction) → Nat → Option Auction
  | [], _ => none
  | (k, a) :: rest, id => if k = id then some a else findAuction rest id

/-- Saving via `auction.save()` after mutating a fetched document: replace the stored
document with the given id. -/
def setAuction : List (Nat × Auction) → Nat → Auction → List (Nat × Auction)
  | [], _, _ => []
  | (k, v) :: rest, id, a => if k = id then (k, a) :: rest else (k, v) :: setAuction rest id a

/-- Members of the room of an auction. -/
def roomMembers (rooms : List (Nat × List Nat)) (auctionId : Nat) : List Nat :=
  match rooms with
  | [] => []
  | (k, ms) :: rest => if k = auctionId then ms else roomMembers rest auctionId

/-- The `join-auction` handler: `socket.join` on the auction's room
(idempotent, socket.io room membership is a set). -/
def joinAuction (st : AppState) (sessionId auctionId : Nat) : AppState :=
  let ms := roomMembers st.rooms auctionId
  let ms' := if sessionId ∈ ms then ms else ms ++ [sessionId]
  { st with rooms := (auctionId, ms') :: st.rooms.filter (fun p => p.1 ≠ auctionId) }

/-- The `place-bid` handler of `backend/server.js`, run atomically: the
checks in source order, then (on acceptance) the bid insert, the auction
update and the room broadcast. Returns the new state and the emitted
events. -/
def placeBid (now : Int) (st : AppState) (userId auctionId : Nat) (amount : Int) :
    AppState × List Event :=
  match findAuction st.auctions auctionId with
  | none => (st, [Event.bidError userId BidErr.auctionNotFound])
  | some auction =>
    if auction.status ≠ Status.active then
      (st, [Event.bidError userId BidErr.auctionNotActive])
    else if auction.endTime < now then
      (st, [Event.bidError userId BidErr.auctionEnded])
    else if amount ≤ auction.currentPrice then
      (st, [Event.bidError userId BidErr.bidTooLow])
    else
      let bid : BidRecord := { auction := auctionId, bidder := userId,
                               amount := amount, createdAt := now }
      let updated := { auction with currentPrice := amount, highestBidder := some userId }
      ({ st with auctions := setAuction st.auctions auctionId updated,
                 bids := st.bids ++ [bid] },
       [Event.newBid auctionId bid amount])

/-- Events a given session actually receives: a `bid-error` only as the
submitter it was emitted to, a `new-bid` only as a member of the auction's
room at broadcast time. -/
def deliveredEvents (rooms : List (Nat × List Nat)) (sessionId : Nat)
    (evs : List Event) : List Event :=
  evs.filter fun e =>
    match e with
    | .bidError s _ => decide (s = sessionId)
    | .newBid auctionId _ _ => decide (sessionId ∈ roomMembers rooms auctionId)

/-- Unfolding of the accepting branch: with the auction found, active, not
expired and the amount strictly above the current price, the handler
commits the updated document, appends the bid and broadcasts. -/
theorem placeBid_commit_eq (now : Int) (st : AppState)
    (userId auctionId : Nat) (amount : Int) (a : Auction)
    (hfind : findAuction st.auctions auctionId = some a)
    (hactive : a.status = Status.active)
    (hnotExpired : ¬ a.endTime < now)
    (hgt : a.currentPrice < amount) :
    placeBid now st userId auctionId amount =
      ({ st with
          auctions := setAuction st.auctions auctionId
            { a with currentPrice := amount, highestBidder := some userId },
          bids := st.bids ++ [⟨auctionId, userId, amount, now⟩] },
       [Event.newBid auctionId ⟨auctionId, userId, amount, now⟩ amount]) := by
  simp [placeBid, hfind, hactive, hnotExpired, not_le.mpr hgt]

/-- Unfolding of the price-comparison rejection: with the auction found,
active and not expired, an amount at or below the current price yields the
bid-too-low error and no change. -/
theorem placeBid_tooLow_eq (now : Int) (st : AppState)
    (userId auctionId : Nat) (amount : Int) (a : Auction)
    (hfind : findAuction st.auctions auctionId = some a)
    (hactive : a.status = Status.active)
    (hnotExpired : ¬ a.endTime < now)
    (hle : amount ≤ a.currentPrice) :
    placeBid now st userId auctionId amount =
      (st, [Event.bidError userId BidErr.bidTooLow]) := by
  simp [placeBid, hfind, hactive, hnotExpired, hle]

/-- C1: on an existing, active, non-expired auction a bid commits (new
`currentPrice` and `highestBidder` recorded, bid appended, `new-bid`
broadcast) exactly when the amount strictly exceeds `currentPrice`; an
amount equal to (or below) `currentPrice` is rejected as too low. -/
theorem C1_commit_iff_strictly_higher (now : Int) (st : AppState)
    (userId auctionId : Nat) (amount : Int) (a : Auction)
    (hfind : findAuction st.auctions auctionId = some a)
    (hactive : a.status = Status.active)
    (hnotExpired : ¬ a.endTime < now) :
    (a.currentPrice < amount →
      placeBid now st userId auctionId amount =
        ({ st with
            auctions := setAuction st.auctions auctionId
              { a with currentPrice := amount, highestBidder := some userId },
            bids := st.bids ++ [⟨auctionId, userId, amount, now⟩] },
         [Event.newBid auctionId ⟨auctionId, userId, amount, now⟩ amount]))
    ∧ (amount ≤ a.currentPrice →
      placeBid now st userId auctionId amount =
        (st, [Event.bidError userId BidErr.bidTooLow])) :=
  ⟨placeBid_commit_eq now st userId auctionId amount a hfind hactive hnotExpired,
   placeBid_tooLow_eq now st userId auctionId amount a hfind hactive hnotExpired⟩

/-- A concrete auction used by witnesses: price 100, active, not expired,
sold by user 5. -/
def sampleAuction : Auction :=
  { title := "t", description := "d", startingPrice := 50, currentPrice := 100,
    category := "c", image := "", status := Status.active, startTime := 0,
    endTime := 1000, seller := 5, highestBidder := none, bidCount := 0,
    createdAt := 0 }

/-- A concrete state holding only `sampleAuction` under id 1, no bids, no
rooms. -/
def sampleState : AppState :=
  { auctions := [(1, sampleAuction)], bids := [], rooms := [] }

/-- Witness for C1 at a concrete state: auction 1 at price 100, a bid of
110 commits with the updated price and bidder, and a bid of 100 (a tie) is
rejected as too low. -/
theorem C1_witness :
    (placeBid 10 sampleState 2 1 110).2 = [Event.newBid 1 ⟨1, 2, 110, 10⟩ 110]
    ∧ (placeBid 10 sampleState 2 1 100).2 = [Event.bidError 2 BidErr.bidTooLow] := by
  constructor
  · exact congrArg Prod.snd
      ((C1_commit_iff_strictly_higher 10 sampleState 2 1 110 sampleAuction
        (by decide) (by decide) (by decide)).1 (by decide))
  · exact congrArg Prod.snd
      ((C1_commit_iff_strictly_higher 10 sampleState 2 1 100 sampleAuction
        (by decide) (by decide) (by decide)).2 (by decide))

/-- C2: every rejected submission leaves the state untouched (auctions and
the bid collection unchanged, hence `currentPrice` and `highestBidder`
unchanged) and emits exactly one `bid-error` to the submitter, with no
`new-bid` broadcast. -/
theorem C2_rejection_mutates_nothing (now : Int) (st : AppState)
    (userId auctionId : Nat) (amount : Int)
    (hreject : findAuction st.auctions auctionId = none
      ∨ ∃ a, findAuction st.auctions auctionId = some a
          ∧ (a.status ≠ Status.active ∨ a.endTime < now ∨ amount ≤ a.currentPrice)) :
    (placeBid now st userId auctionId amount).1 = st
    ∧ ∃ e, (placeBid now st userId auctionId amount).2 = [Event.bidError userId e] := by
  rcases hreject with hnone | ⟨a, hfind, hcase⟩
  · simp [placeBid, hnone]
  · rcases hcase with hstat | hexp | hlow
    · simp [placeBid, hfind, hstat]
    · by_cases hstat : a.status = Status.active
      · simp [placeBid, hfind, hstat, hexp]
      · simp [placeBid, hfind, hstat]
    · by_cases hstat : a.status = Status.active
      · by_cases hexp : a.endTime < now
        · simp [placeBid, hfind, hstat, hexp]
        · simp [placeBid, hfind, hstat, hexp, hlow]
      · simp [placeBid, hfind, hstat]

/-- Witness for C2: a too-low bid of 90 against `sampleState` (price 100)
leaves the state equal to `sampleState` and produces a single bid-error. -/
theorem C2_witness :
    (placeBid 10 sampleState 2 1 90).1 = sampleState
    ∧ ∃ e, (placeBid 10 sampleState 2 1 90).2 = [Event.bidError 2 e] :=
  C2_rejection_mutates_nothing 10 sampleState 2 1 90
    (Or.inr ⟨sampleAuction, by decide, Or.inr (Or.inr (by decide))⟩)

/-- C10: the rejection checks run in the source's fixed order — missing
auction, then non-active status, then expiry, then the price comparison —
so each failing submission gets one deterministic error; in particular a
too-low bid on an expired but still status-active auction is answered with
the auction-ended error, not the bid-too-low error. -/
theorem C10_check_priority_order (now : Int) (st : AppState)
    (userId auctionId : Nat) (amount : Int) :
    (findAuction st.auctions auctionId = none →
      (placeBid now st userId auctionId amount).2 =
        [Event.bidError userId BidErr.auctionNotFound])
    ∧ (∀ a, findAuction st.auctions auctionId = some a → a.status ≠ Status.active →
      (placeBid now st userId auctionId amount).2 =
        [Event.bidError userId BidErr.auctionNotActive])
    ∧ (∀ a, findAuction st.auctions auctionId = some a → a.status = Status.active →
      a.endTime < now →
      (placeBid now st userId auctionId amount).2 =
        [Event.bidError userId BidErr.auctionEnded])
    ∧ (∀ a, findAuction st.auctions auctionId = some a → a.status = Status.active →
      ¬ a.endTime < now → amount ≤ a.currentPrice →
      (placeBid now st userId auctionId amount).2 =
        [Event.bidError userId BidErr.bidTooLow]) := by
  refine ⟨fun hnone => ?_, fun a hfind hstat => ?_, fun a hfind hstat hexp => ?_,
    fun a hfind hstat hexp hlow => ?_⟩
  · simp [placeBid, hnone]
  · simp [placeBid, hfind, hstat]
  · simp [placeBid, hfind, hstat, hexp]
  · simp [placeBid, hfind, hstat, hexp, hlow]

/-- Witness for C10: an auction that is expired (`endTime` 1000 < now 2000)
but still has status `active`, receiving a too-low bid of 90 against price
100, is answered with the auction-ended error rather than bid-too-low; and
a missing auction id is answered with auction-not-found. -/
theorem C10_witness :
    (placeBid 2000 sampleState 2 1 90).2 = [Event.bidError 2 BidErr.auctionEnded]
    ∧ (placeBid 2000 sampleState 2 7 90).2 = [Event.bidError 2 BidErr.auctionNotFound] :=
  ⟨(C10_check_priority_order 2000 sampleState 2 1 90).2.2.1 sampleAuction
      (by decide) (by decide) (by decide),
    (C10_check_priority_order 2000 sampleState 2 7 90).1 (by decide)⟩

/-- Lookup `Auction.findById` as used by the GET route: the stored document for an
id in the current state. -/
def getAuction (st : AppState) (auctionId : Nat) : Option Auction :=
  findAuction st.auctions auctionId

/-- C3 evidence: the handler has no self-bid check. The seller of auction 1
(user 5, the seller recorded in `sampleAuction`) bids 110 on its own
auction and the bid commits — new price 110, highest bidder 5, a `new-bid`
broadcast and no error — although the frontend and the spec say a seller
must never be able to bid on its own item. -/
theorem C3_seller_bid_commits :
    (getAuction (placeBid 10 sampleState 5 1 110).1 1).map
        (fun a => (a.currentPrice, a.highestBidder)) = some (110, some 5)
    ∧ (placeBid 10 sampleState 5 1 110).2 = [Event.newBid 1 ⟨1, 5, 110, 10⟩ 110]
    ∧ sampleAuction.seller = 5 := by
  decide

/-- C4 counterexample: a bid of 200 at time 2000 on auction 1 (price 100,
status active, `endTime` 1000) is rejected with the auction-ended error,
but the bid attempt does not transition the status — a subsequent Get
still returns status `active`, not `ended` as the claim requires. -/
theorem C4_counterexample :
    (placeBid 2000 sampleState 2 1 200).2 = [Event.bidError 2 BidErr.auctionEnded]
    ∧ (getAuction (placeBid 2000 sampleState 2 1 200).1 1).map Auction.status =
        some Status.active := by
  decide

/-- C4 amended: a bid submitted when the current time is past `endTime` on a
status-active auction is rejected with the auction-ended error even if the
amount exceeds the committed price, but the state is left untouched — there
is no lazy transition, and a subsequent Get returns the auction with its
status still unchanged. -/
theorem C4_expired_bid_rejected_no_transition (now : Int) (st : AppState)
    (userId auctionId : Nat) (amount : Int) (a : Auction)
    (hfind : findAuction st.auctions auctionId = some a)
    (hactive : a.status = Status.active)
    (hexpired : a.endTime < now) :
    placeBid now st userId auctionId amount =
      (st, [Event.bidError userId BidErr.auctionEnded])
    ∧ getAuction (placeBid now st userId auctionId amount).1 auctionId = some a := by
  have h : placeBid now st userId auctionId amount =
      (st, [Event.bidError userId BidErr.auctionEnded]) := by
    simp [placeBid, hfind, hactive, hexpired]
  exact ⟨h, by rw [h]; exact hfind⟩

/-- Witness for C4 amended: at time 2000, a bid of 200 on the expired
sample auction yields the auction-ended error and the stored document is
unchanged (status still active). -/
theorem C4_witness :
    placeBid 2000 sampleState 2 1 200 = (sampleState, [Event.bidError 2 BidErr.auctionEnded])
    ∧ getAuction (placeBid 2000 sampleState 2 1 200).1 1 = some sampleAuction :=
  C4_expired_bid_rejected_no_transition 2000 sampleState 2 1 200 sampleAuction
    (by decide) (by decide) (by decide)

/-- C6 counterexample: a successful commit (bid 110 against price 100)
appends one bid record, yet the auction's `bidCount` still reads 0 — the
commit does not update the bid-count metadata the claim requires (the
repository's data-flow document shows `bidCount` incremented at this step),
and the stored bid record carries no sequence number, only auction, bidder,
amount and timestamp. -/
theorem C6_counterexample :
    (placeBid 10 sampleState 2 1 110).1.bids = [⟨1, 2, 110, 10⟩]
    ∧ sampleState.bids = []
    ∧ (getAuction (placeBid 10 sampleState 2 1 110).1 1).map Auction.bidCount = some 0 := by
  decide

/-- If an id resolves to a document, saving a replacement under that id
makes the id resolve to the replacement. -/
theorem findAuction_setAuction (l : List (Nat × Auction)) (id : Nat)
    (a a' : Auction) (hfind : findAuction l id = some a) :
    findAuction (setAuction l id a') id = some a' := by
  induction l with
  | nil => simp [findAuction] at hfind
  | cons p rest ih =>
    obtain ⟨k, v⟩ := p
    by_cases hk : k = id
    · simp [findAuction, setAuction, hk]
    · simp only [findAuction, setAuction, hk, if_false, if_neg hk] at hfind ⊢
      exact ih hfind

/-- C6 amended: a successful commit appends exactly one Bid record holding
auction reference, bidder, amount and timestamp (there is no per-auction
sequence number), and rewrites the auction document changing only
`currentPrice` and `highestBidder`; in particular `bidCount` keeps its prior
value rather than reflecting the appended bid. -/
theorem C6_commit_updates_price_bidder_only (now : Int) (st : AppState)
    (userId auctionId : Nat) (amount : Int) (a : Auction)
    (hfind : findAuction st.auctions auctionId = some a)
    (hactive : a.status = Status.active)
    (hnotExpired : ¬ a.endTime < now)
    (hgt : a.currentPrice < amount) :
    (placeBid now st userId auctionId amount).1.bids =
      st.bids ++ [⟨auctionId, userId, amount, now⟩]
    ∧ getAuction (placeBid now st userId auctionId amount).1 auctionId =
        some { a with currentPrice := amount, highestBidder := some userId }
    ∧ (getAuction (placeBid now st userId auctionId amount).1 auctionId).map
        Auction.bidCount = some a.bidCount := by
  have h := placeBid_commit_eq now st userId auctionId amount a
    hfind hactive hnotExpired hgt
  refine ⟨by rw [h], ?_, ?_⟩
  · rw [h]
    exact findAuction_setAuction st.auctions auctionId a _ hfind
  · rw [h]
    simp [getAuction, findAuction_setAuction st.auctions auctionId a _ hfind]

/-- Witness for C6 amended at the sample state: the committed bid record and
the rewritten document, whose `bidCount` still equals the prior value 0. -/
theorem C6_witness :
    (placeBid 10 sampleState 2 1 110).1.bids = sampleState.bids ++ [⟨1, 2, 110, 10⟩]
    ∧ getAuction (placeBid 10 sampleState 2 1 110).1 1 =
        some { sampleAuction with currentPrice := 110, highestBidder := some 2 }
    ∧ (getAuction (placeBid 10 sampleState 2 1 110).1 1).map Auction.bidCount =
        some sampleAuction.bidCount :=
  C6_commit_updates_price_bidder_only 10 sampleState 2 1 110 sampleAuction
    (by decide) (by decide) (by decide) (by decide)

/-- C7 counterexample: a bid of amount 0 — not a positive amount, so
malformed under the claim — is not rejected as `InvalidBid` before state
access: against the sample state it produces the bid-too-low error, and the
very same submission against an empty store produces auction-not-found, so
the outcome is computed from auction state, not by input validation. -/
theorem C7_counterexample :
    (placeBid 10 sampleState 2 1 0).2 = [Event.bidError 2 BidErr.bidTooLow]
    ∧ (placeBid 10 { auctions := [], bids := [], rooms := [] } 2 1 0).2 =
        [Event.bidError 2 BidErr.auctionNotFound] := by
  decide

/-- C7 amended: the handler performs no shape validation of the amount. A
non-positive amount submitted against an existing, active, unexpired
auction whose current price is non-negative falls through to the price
comparison and is rejected with the bid-too-low error — after the auction
lookup, and with no distinct invalid-input rejection. -/
theorem C7_no_shape_validation (now : Int) (st : AppState)
    (userId auctionId : Nat) (amount : Int) (a : Auction)
    (hfind : findAuction st.auctions auctionId = some a)
    (hactive : a.status = Status.active)
    (hnotExpired : ¬ a.endTime < now)
    (hamt : amount ≤ 0) (hcp : 0 ≤ a.currentPrice) :
    placeBid now st userId auctionId amount =
      (st, [Event.bidError userId BidErr.bidTooLow]) :=
  placeBid_tooLow_eq now st userId auctionId amount a hfind hactive
    hnotExpired (le_trans hamt hcp)

/-- Witness for C7 amended: amount 0 against the sample auction (price 100)
is rejected as too low. -/
theorem C7_witness :
    placeBid 10 sampleState 2 1 0 = (sampleState, [Event.bidError 2 BidErr.bidTooLow]) :=
  C7_no_shape_validation 10 sampleState 2 1 0 sampleAuction
    (by decide) (by decide) (by decide) (by decide) (by decide)

/-- C8 counterexample: the success outcome is only the room broadcast. A
submitter that never joined the auction's room (the sample state has no
rooms) places a winning bid of 110; the commit happens, but the delivered
events for that session are empty — it receives neither a broadcast nor a
bid-error, against the claim that it never receives neither. -/
theorem C8_counterexample :
    (placeBid 10 sampleState 2 1 110).2 = [Event.newBid 1 ⟨1, 2, 110, 10⟩ 110]
    ∧ deliveredEvents sampleState.rooms 2 (placeBid 10 sampleState 2 1 110).2 = [] := by
  decide

/-- C8 amended: the handler emits exactly one outcome event per submission —
a single bid-error to the submitter or a single `new-bid` broadcast to the
auction's room — and a submitter that has joined the auction's room
receives exactly one outcome (never both, never neither). -/
theorem C8_exactly_one_outcome (now : Int) (st : AppState)
    (userId auctionId : Nat) (amount : Int) :
    ((placeBid now st userId auctionId amount).2).length = 1
    ∧ (userId ∈ roomMembers st.rooms auctionId →
        (deliveredEvents st.rooms userId
          (placeBid now st userId auctionId amount).2).length = 1) := by
  cases hfind : findAuction st.auctions auctionId with
  | none =>
    exact ⟨by simp [placeBid, hfind],
      fun _ => by simp [placeBid, hfind, deliveredEvents]⟩
  | some a =>
    by_cases hstat : a.status = Status.active
    · by_cases hexp : a.endTime < now
      · exact ⟨by simp [placeBid, hfind, hstat, hexp],
          fun _ => by simp [placeBid, hfind, hstat, hexp, deliveredEvents]⟩
      · by_cases hle : amount ≤ a.currentPrice
        · exact ⟨by simp [placeBid, hfind, hstat, hexp, hle],
            fun _ => by simp [placeBid, hfind, hstat, hexp, hle, deliveredEvents]⟩
        · exact ⟨by simp [placeBid, hfind, hstat, hexp, hle],
            fun hm => by simp [placeBid, hfind, hstat, hexp, hle, deliveredEvents, hm]⟩
    · exact ⟨by simp [placeBid, hfind, hstat],
        fun _ => by simp [placeBid, hfind, hstat, deliveredEvents]⟩

/-- Witness for C8 amended: after joining auction 1's room, session 2's
winning bid results in exactly one emitted event and exactly one event
delivered to session 2. -/
theorem C8_witness :
    ((placeBid 10 (joinAuction sampleState 2 1) 2 1 110).2).length = 1
    ∧ (deliveredEvents (joinAuction sampleState 2 1).rooms 2
        (placeBid 10 (joinAuction sampleState 2 1) 2 1 110).2).length = 1 :=
  ⟨(C8_exactly_one_outcome 10 (joinAuction sampleState 2 1) 2 1 110).1,
   (C8_exactly_one_outcome 10 (joinAuction sampleState 2 1) 2 1 110).2 (by decide)⟩

/-- The body of a PUT update request: the four optional fields the route
destructures from `req.body`. -/
structure UpdateBody where
  title : Option String
  description : Option String
  category : Option String
  image : Option String
deriving DecidableEq, Repr

/-- Result of the PUT route: 404, 403, or the updated document. -/
inductive PutResponse where
  | notFound
  | notAuthorized
  | updated (a : Auction)
deriving DecidableEq, Repr

/-- The conditional field copies of the PUT route: `title`, `description`
and `category` only when present and truthy (a present empty string is
falsy in the source's `if (title)` tests), `image` whenever it is not
undefined. -/
def applyUpdate (a : Auction) (b : UpdateBody) : Auction :=
  let a1 := match b.title with
    | some t => if t != "" then { a with title := t } else a
    | none => a
  let a2 := match b.description with
    | some d => if d != "" then { a1 with description := d } else a1
    | none => a1
  let a3 := match b.category with
    | some c => if c != "" then { a2 with category := c } else a2
    | none => a2
  match b.image with
  | some i => { a3 with image := i }
  | none => a3

/-- The PUT `/:id` route of `backend/routes/auctions.js`: not-found check,
then the seller-or-admin authorization check, then the conditional field
copies and the save. -/
def putAuction (st : AppState) (userId : Nat) (role : String) (id : Nat)
    (b : UpdateBody) : AppState × PutResponse :=
  match findAuction st.auctions id with
  | none => (st, PutResponse.notFound)
  | some auction =>
    if auction.seller ≠ userId ∧ role ≠ "admin" then
      (st, PutResponse.notAuthorized)
    else
      let updated := applyUpdate auction b
      ({ st with auctions := setAuction st.auctions id updated },
       PutResponse.updated updated)

/-- The fields the PUT route must not change: price, bidder, status,
starting price and deadline. -/
def frameFields (a : Auction) : Int × Option Nat × Status × Int × Int :=
  (a.currentPrice, a.highestBidder, a.status, a.startingPrice, a.endTime)

/-- Replacing the document under one id leaves lookups of other ids
unchanged. -/
theorem findAuction_setAuction_ne (l : List (Nat × Auction)) (id aid : Nat)
    (a' : Auction) (hne : aid ≠ id) :
    findAuction (setAuction l id a') aid = findAuction l aid := by
  induction l with
  | nil => rfl
  | cons p rest ih =>
    obtain ⟨k, v⟩ := p
    by_cases hk : k = id
    · subst hk
      simp only [setAuction, if_pos rfl, findAuction]
      rw [if_neg fun h => hne h.symm, if_neg fun h => hne h.symm]
    · simp only [findAuction, setAuction, if_neg hk]
      by_cases hka : k = aid
      · simp [findAuction, hka]
      · simp [findAuction, hka, ih]

/-- The conditional field copies touch only title, description, category
and image: the frame fields survive unchanged. -/
theorem applyUpdate_frame (a : Auction) (b : UpdateBody) :
    frameFields (applyUpdate a b) = frameFields a := by
  obtain ⟨t, d, c, i⟩ := b
  cases t <;> cases d <;> cases c <;> cases i <;>
    simp only [applyUpdate, frameFields] <;> split_ifs <;> rfl

/-- C9: the HTTP update route can only change title, description, category
and image; for every request and every stored auction, `currentPrice`,
`highestBidder`, `status`, `startingPrice` and `endTime` read back
unchanged — so price, bidder and status are mutated only by the bid-commit
step. -/
theorem C9_put_preserves_frame (st : AppState) (userId : Nat) (role : String)
    (id : Nat) (b : UpdateBody) (aid : Nat) :
    (findAuction (putAuction st userId role id b).1.auctions aid).map frameFields =
      (findAuction st.auctions aid).map frameFields := by
  unfold putAuction
  cases hfind : findAuction st.auctions id with
  | none => rfl
  | some auction =>
    by_cases hauth : auction.seller ≠ userId ∧ role ≠ "admin"
    · simp [hauth]
    · simp only [if_neg hauth]
      by_cases haid : aid = id
      · subst haid
        rw [findAuction_setAuction st.auctions aid auction _ hfind, hfind]
        simp [applyUpdate_frame]
      · rw [findAuction_setAuction_ne st.auctions id aid _ haid]

/-- One in-flight `place-bid` handler invocation, cut at its `await`
boundaries: pc 0 = `findById` resolves and the checks run; pc 1 =
`bid.save()` resolves; pc 2 = `auction.save()` resolves (writing the
document fetched at pc 0 with the new price and bidder); pc 3 = the
populated bid is broadcast; pc 4 = finished. -/
structure BidThread where
  userId : Nat
  auctionId : Nat
  amount : Int
  pc : Nat
  snapshot : Option Auction
deriving DecidableEq, Repr

/-- A configuration of several in-flight submissions over the shared
state, with the events emitted so far. -/
structure Concurrent where
  state : AppState
  threads : List BidThread
  events : List Event
deriving DecidableEq, Repr

/-- Run the next await-delimited segment of thread `i`. The checks at pc 0
use the live state, but the write at pc 2 uses the snapshot taken at pc 0 —
exactly the read-then-write of the source, where nothing prevents another
handler from running between the two. -/
def stepThread (now : Int) (c : Concurrent) (i : Nat) : Concurrent :=
  match c.threads[i]? with
  | none => c
  | some t =>
    if t.pc = 0 then
      match findAuction c.state.auctions t.auctionId with
      | none =>
        { c with threads := c.threads.set i { t with pc := 4 },
                 events := c.events ++ [Event.bidError t.userId BidErr.auctionNotFound] }
      | some a =>
        if a.status ≠ Status.active then
          { c with threads := c.threads.set i { t with pc := 4 },
                   events := c.events ++ [Event.bidError t.userId BidErr.auctionNotActive] }
        else if a.endTime < now then
          { c with threads := c.threads.set i { t with pc := 4 },
                   events := c.events ++ [Event.bidError t.userId BidErr.auctionEnded] }
        else if t.amount ≤ a.currentPrice then
          { c with threads := c.threads.set i { t with pc := 4 },
                   events := c.events ++ [Event.bidError t.userId BidErr.bidTooLow] }
        else
          { c with threads := c.threads.set i { t with pc := 1, snapshot := some a } }
    else if t.pc = 1 then
      { c with
          state := { c.state with
            bids := c.state.bids ++ [⟨t.auctionId, t.userId, t.amount, now⟩] },
          threads := c.threads.set i { t with pc := 2 } }
    else if t.pc = 2 then
      match t.snapshot with
      | none => c
      | some a =>
        { c with
            state := { c.state with
              auctions := setAuction c.state.auctions t.auctionId
                { a with currentPrice := t.amount, highestBidder := some t.userId } },
            threads := c.threads.set i { t with pc := 3 } }
    else if t.pc = 3 then
      { c with threads := c.threads.set i { t with pc := 4 },
               events := c.events ++
                 [Event.newBid t.auctionId ⟨t.auctionId, t.userId, t.amount, now⟩ t.amount] }
    else c

/-- Run a whole schedule of thread choices. -/
def runSched (now : Int) (c : Concurrent) (sched : List Nat) : Concurrent :=
  sched.foldl (stepThread now) c

/-- The prices of the commits broadcast for one auction, in emission
order. -/
def committedPrices (auctionId : Nat) (evs : List Event) : List Int :=
  evs.filterMap fun e =>
    match e with
    | .newBid aid _ p => if aid = auctionId then some p else none
    | .bidError _ _ => none

/-- Two racing submissions on auction 1 (price 100): bidder 2 offers 110,
bidder 3 offers 105, and both pass the price check before either write
lands. -/
def raceStart : Concurrent :=
  { state := sampleState,
    threads := [⟨2, 1, 110, 0, none⟩, ⟨3, 1, 105, 0, none⟩],
    events := [] }

/-- C5 counterexample: with both threads performing their checks before
either writes (schedule 0,1 then each running to completion), both bids
commit: the committed prices are 110 then 105, not strictly increasing,
and the stored price ends at 105 — a lower bid overwrote a higher committed
one. Bid decisions are not serialized per auction. -/
theorem C5_counterexample :
    committedPrices 1 (runSched 10 raceStart [0, 1, 0, 0, 0, 1, 1, 1]).events =
      [110, 105]
    ∧ ¬ List.Chain' (· < ·)
        (committedPrices 1 (runSched 10 raceStart [0, 1, 0, 0, 0, 1, 1, 1]).events)
    ∧ (getAuction (runSched 10 raceStart [0, 1, 0, 0, 0, 1, 1, 1]).state 1).map
        Auction.currentPrice = some 105 := by
  refine ⟨by decide, ?_, by decide⟩
  intro hch
  rw [show committedPrices 1 (runSched 10 raceStart [0, 1, 0, 0, 0, 1, 1, 1]).events =
    [110, 105] from by decide] at hch
  exact absurd (List.chain'_cons.mp hch).1 (by decide)

/-- Case split of the handler: every run either rejects — returning the
state unchanged with one bid-error — or the auction was found with the
amount strictly above its current price and the handler commits. -/
theorem placeBid_cases (now : Int) (st : AppState) (userId auctionId : Nat)
    (amount : Int) :
    (∃ e, placeBid now st userId auctionId amount = (st, [Event.bidError userId e]))
    ∨ (∃ a, findAuction st.auctions auctionId = some a ∧ a.currentPrice < amount ∧
        placeBid now st userId auctionId amount =
          ({ st with
              auctions := setAuction st.auctions auctionId
                { a with currentPrice := amount, highestBidder := some userId },
              bids := st.bids ++ [⟨auctionId, userId, amount, now⟩] },
           [Event.newBid auctionId ⟨auctionId, userId, amount, now⟩ amount])) := by
  cases hf : findAuction st.auctions auctionId with
  | none => exact Or.inl ⟨BidErr.auctionNotFound, by simp [placeBid, hf]⟩
  | some a =>
    by_cases h1 : a.status = Status.active
    · by_cases h2 : a.endTime < now
      · exact Or.inl ⟨BidErr.auctionEnded, by simp [placeBid, hf, h1, h2]⟩
      · by_cases h3 : amount ≤ a.currentPrice
        · exact Or.inl ⟨BidErr.bidTooLow, by simp [placeBid, hf, h1, h2, h3]⟩
        · refine Or.inr ⟨a, rfl, lt_of_not_le h3, ?_⟩
          exact placeBid_commit_eq now st userId auctionId amount a hf h1 h2
            (lt_of_not_le h3)
    · exact Or.inl ⟨BidErr.auctionNotActive, by simp [placeBid, hf, h1]⟩

/-- Serialized processing: each submission's handler runs to completion
before the next starts. -/
def seqRun (now : Int) (st : AppState) : List BidThread → AppState × List Event
  | [] => (st, [])
  | t :: rest =>
    let p := placeBid now st t.userId t.auctionId t.amount
    let q := seqRun now p.1 rest
    (q.1, p.2 ++ q.2)

/-- C5 amended: when submissions are processed one at a time (each handler
run to completion before the next starts), the committed prices of any
auction, prefixed by its price before the run, form a strictly increasing
sequence — every commit strictly exceeds the price it replaced. The
handler itself does not serialize; `C5_counterexample` interleaves two
in-flight handlers and commits 110 then 105. -/
theorem C5_serialized_prices_strictly_increase (now : Int) (reqs : List BidThread) :
    ∀ (st : AppState) (aid : Nat) (a : Auction),
      findAuction st.auctions aid = some a →
      List.Chain' (· < ·)
        (a.currentPrice :: committedPrices aid (seqRun now st reqs).2) := by
  induction reqs with
  | nil =>
    intro st aid a hfind
    simp [seqRun, committedPrices]
  | cons r rs ih =>
    intro st aid a hfind
    rcases placeBid_cases now st r.userId r.auctionId r.amount with
      ⟨e, hp⟩ | ⟨a2, hf2, hlt, hp⟩
    · simp only [seqRun, hp]
      simpa [committedPrices] using ih st aid a hfind
    · by_cases haid : r.auctionId = aid
      · subst haid
        rw [hf2] at hfind
        have ha2 : a2 = a := Option.some.inj hfind
        subst ha2
        simp only [seqRun, hp]
        have hfind' :
            findAuction
              (setAuction st.auctions r.auctionId
                { a2 with currentPrice := r.amount, highestBidder := some r.userId })
              r.auctionId =
            some { a2 with currentPrice := r.amount, highestBidder := some r.userId } :=
          findAuction_setAuction st.auctions r.auctionId a2 _ hf2
        have htail := ih
          { st with
              auctions := setAuction st.auctions r.auctionId
                { a2 with currentPrice := r.amount, highestBidder := some r.userId },
              bids := st.bids ++ [⟨r.auctionId, r.userId, r.amount, now⟩] }
          r.auctionId
          { a2 with currentPrice := r.amount, highestBidder := some r.userId }
          hfind'
        simp only [committedPrices, List.filterMap_append, List.filterMap_cons,
          if_pos rfl, List.filterMap_nil] at htail ⊢
        exact List.chain'_cons.mpr ⟨hlt, htail⟩
      · simp only [seqRun, hp]
        have hkeep :
            findAuction
              (setAuction st.auctions r.auctionId
                { a2 with currentPrice := r.amount, highestBidder := some r.userId })
              aid = some a := by
          rw [findAuction_setAuction_ne st.auctions r.auctionId aid _
            fun h => haid h.symm]
          exact hfind
        simpa [committedPrices, haid] using ih _ aid a hkeep

/-- Witness for C5 amended: three serialized bids 110, 105, 120 against the
sample auction at price 100 — the strict chain over the committed prices
holds for the concrete run (110 commits, 105 is rejected, 120 commits). -/
theorem C5_witness :
    List.Chain' (· < ·)
      (sampleAuction.currentPrice ::
        committedPrices 1
          (seqRun 10 sampleState
            [⟨2, 1, 110, 0, none⟩, ⟨3, 1, 105, 0, none⟩, ⟨3, 1, 120, 0, none⟩]).2) :=
  C5_serialized_prices_strictly_increase 10
    [⟨2, 1, 110, 0, none⟩, ⟨3, 1, 105, 0, none⟩, ⟨3, 1, 120, 0, none⟩]
    sampleState 1 sampleAuction (by decide)
